import Mathlib

/-- A parsed calendar date, as produced by `datetime.strptime(s, "%Y-%m-%d")`. -/
structure PDate where
  year : Nat
  month : Nat
  day : Nat
deriving DecidableEq, Repr

/-- Strict ordering of dates (Python `date.__lt__`): lexicographic on
(year, month, day). -/
def PDate.blt (a b : PDate) : Bool :=
  a.year < b.year ||
    (a.year = b.year && (a.month < b.month ||
      (a.month = b.month && a.day < b.day)))

/-- Non-strict ordering of dates (Python `date.__le__`). -/
def PDate.ble (a b : PDate) : Bool :=
  a.blt b || a = b

def isLeapYear (y : Nat) : Bool :=
  y % 4 = 0 && (y % 100 != 0 || y % 400 = 0)

def daysInMonth (y m : Nat) : Nat :=
  if m = 2 then (if isLeapYear y then 29 else 28)
  else if m = 4 || m = 6 || m = 9 || m = 11 then 30
  else 31

/-- Split a character list on the dash character (the separators of the
`%Y-%m-%d` format). -/
def splitDash : List Char → List (List Char)
  | [] => [[]]
  | c :: rest =>
    let r := splitDash rest
    if c = '-' then [] :: r
    else
      match r with
      | [] => [[c]]
      | g :: gs => (c :: g) :: gs

/-- Value of a nonempty all-digit character group, `none` otherwise. -/
def digitGroupToNat (cs : List Char) : Option Nat :=
  if cs ≠ [] ∧ cs.all Char.isDigit then
    some (cs.foldl (fun n c => n * 10 + (c.toNat - 48)) 0)
  else none

/-- The day group of CPython's `%d` directive, whose pattern is
`3[01]|[12]\d|0[1-9]|[1-9]| [1-9]`: one or two digits, or a space followed
by a nonzero digit.  The numeric two-digit constraints (value 1..31, no
`00`) are subsumed by the day-of-month bound checked afterwards. -/
def dayGroupToNat (cs : List Char) : Option Nat :=
  match cs with
  | [' ', c] => if '1' ≤ c ∧ c ≤ '9' then some (c.toNat - 48) else none
  | _ => if cs.length ≤ 2 then digitGroupToNat cs else none

/-- Embeds `datetime.strptime(s, "%Y-%m-%d")` (CPython `_strptime`): `%Y`
matches exactly four digits, `%m` one or two digits valued 1..12, `%d` as
in `dayGroupToNat`; the day must also fit the month (leap years included)
and the year must be at least 1, or the `datetime` constructor raises.
`none` models the `ValueError` raised on any malformed input. -/
def strptimeYmd (s : String) : Option PDate :=
  match splitDash s.toList with
  | [ys, ms, ds] =>
    match digitGroupToNat ys, digitGroupToNat ms, dayGroupToNat ds with
    | some y, some m, some d =>
      if ys.length = 4 ∧ ms.length ≤ 2 ∧
          1 ≤ y ∧ 1 ≤ m ∧ m ≤ 12 ∧ 1 ≤ d ∧ d ≤ daysInMonth y m then
        some ⟨y, m, d⟩
      else none
    | _, _, _ => none
  | _ => none

/-- An appointment record, with the exact fields built by
`ScheduleSystem.make_appointment`.  Dates are kept as the raw strings the
Python code stores; statuses and payment statuses are the raw strings
`"Booked"`/`"Pending"`/`"Completed"`/`"Cancelled"` and `"Unpaid"`/`"Paid"`. -/
structure Appointment where
  id : String
  client_id : String
  client_name : String
  date : String
  slot_number : String
  payment_status : String
  total_fee : ℚ
  status : String
  comment : String
  timestamp : String
deriving DecidableEq, Repr

/-- A JSON value as it occurs inside a client record: a string, a list of
timestamped comments (timestamp, text), or a list of documents
(filename, path, timestamp). -/
inductive JVal where
  | str (v : String)
  | comments (v : List (String × String))
  | documents (v : List (String × String × String))
deriving DecidableEq, Repr

/-- A client record is a Python dict: an association list from keys to
values, with the insertion order of the keys preserved. -/
abbrev Client := List (String × JVal)

/-- The `settings` dict.  `_load_settings` merges defaults in, so both keys
are always present; `settings.get("session_fee", 50.0)` and
`settings.get("time_slots", [])` therefore read these fields. -/
structure Settings where
  session_fee : ℚ
  time_slots : List String
deriving DecidableEq, Repr

/-- The in-memory state of the `ScheduleSystem` class. -/
structure ScheduleSystem where
  clients : List Client
  settings : Settings
  appointments : List Appointment
deriving DecidableEq, Repr

/-- Embeds `ScheduleSystem.get_session_fee`. -/
def ScheduleSystem.get_session_fee (st : ScheduleSystem) : ℚ :=
  st.settings.session_fee

/-- The `booked_slots` list comprehension inside
`ScheduleSystem.get_available_slots`: slot labels of the appointments on
`date_str` whose status is not `"Cancelled"`. -/
def ScheduleSystem.bookedSlots (st : ScheduleSystem) (date_str : String) : List String :=
  (st.appointments.filter
      (fun app => decide (app.date = date_str) && decide (app.status ≠ "Cancelled"))).map
    (fun app => app.slot_number)

/-- Embeds `ScheduleSystem.get_available_slots`: configured slots not in
`booked_slots`, in configured order. -/
def ScheduleSystem.get_available_slots (st : ScheduleSystem) (date_str : String) : List String :=
  st.settings.time_slots.filter (fun slot => decide (slot ∉ st.bookedSlots date_str))

/-- Embeds `ScheduleSystem.set_time_slots` (always returns `True`). -/
def ScheduleSystem.set_time_slots (st : ScheduleSystem) (new_slots : List String) :
    Bool × ScheduleSystem :=
  (true, { st with settings := { st.settings with time_slots := new_slots } })

/-- Embeds `ScheduleSystem.make_appointment`.  `fresh_id` stands for
`str(uuid.uuid4())` and `now_ts` for the `datetime.now()` timestamp string. -/
def ScheduleSystem.make_appointment (st : ScheduleSystem)
    (date_str client_id client_name slot_number comment fresh_id now_ts : String) :
    (Bool × String) × ScheduleSystem :=
  if slot_number ∉ st.get_available_slots date_str then
    ((false, "Slot " ++ slot_number ++ " is not available for this date."), st)
  else
    ((true, "Appointment booked successfully."),
      { st with appointments := st.appointments ++
          [{ id := fresh_id, client_id := client_id, client_name := client_name,
             date := date_str, slot_number := slot_number, payment_status := "Unpaid",
             total_fee := st.get_session_fee, status := "Booked", comment := comment,
             timestamp := now_ts }] })

/-- Embeds `ScheduleSystem.delete_appointment` (always returns `True`). -/
def ScheduleSystem.delete_appointment (st : ScheduleSystem) (appointment_id : String) :
    Bool × ScheduleSystem :=
  (true, { st with appointments :=
      st.appointments.filter (fun app => decide (app.id ≠ appointment_id)) })

/-- In-place mutation of the first appointment with the given id, as done
on the `app_to_edit` dict found by `next(...)` in `edit_appointment`. -/
def editFirst (appointment_id new_date_str new_slot_number new_comment : String) :
    List Appointment → List Appointment
  | [] => []
  | app :: rest =>
    if app.id = appointment_id then
      { app with date := new_date_str, slot_number := new_slot_number,
                 comment := new_comment } :: rest
    else app :: editFirst appointment_id new_date_str new_slot_number new_comment rest

/-- Embeds `ScheduleSystem.edit_appointment`.  The availability check
exempts only the appointment's own current slot label
(`new_slot_number != app_to_edit['slot_number']`), without comparing dates. -/
def ScheduleSystem.edit_appointment (st : ScheduleSystem)
    (appointment_id new_date_str new_slot_number new_comment : String) :
    (Bool × String) × ScheduleSystem :=
  match st.appointments.find? (fun app => decide (app.id = appointment_id)) with
  | none => ((false, "Appointment not found."), st)
  | some app_to_edit =>
    if new_slot_number ∉ st.get_available_slots new_date_str ∧
        new_slot_number ≠ app_to_edit.slot_number then
      ((false, "Slot " ++ new_slot_number ++ " is not available on " ++ new_date_str ++ "."), st)
    else
      ((true, "Appointment successfully updated."),
        { st with appointments :=
            editFirst appointment_id new_date_str new_slot_number new_comment st.appointments })

/-- In-place mutation of the first appointment with the given id, as done
on the dict found by `next(...)` in `update_appointment_payment_status`. -/
def setPaymentFirst (appointment_id status : String) :
    List Appointment → List Appointment
  | [] => []
  | app :: rest =>
    if app.id = appointment_id then { app with payment_status := status } :: rest
    else app :: setPaymentFirst appointment_id status rest

/-- Embeds `ScheduleSystem.update_appointment_payment_status`. -/
def ScheduleSystem.update_appointment_payment_status (st : ScheduleSystem)
    (appointment_id status : String) : Bool × ScheduleSystem :=
  if st.appointments.any (fun app => decide (app.id = appointment_id)) then
    (true, { st with appointments := setPaymentFirst appointment_id status st.appointments })
  else (false, st)

/-- The per-appointment body of the `run_daily_tasks` loop, for an
appointment whose stored date string parses.  Falsy (empty) `date` or
`status` strings skip the whole body. -/
def dailyAdvance (today : PDate) (app : Appointment) : Appointment :=
  if app.date ≠ "" ∧ app.status ≠ "" then
    match strptimeYmd app.date with
    | some d =>
      if d.blt today ∧ app.status = "Booked" then { app with status := "Completed" }
      else if d = today ∧ app.status = "Booked" then { app with status := "Pending" }
      else app
    | none => app
  else app

/-- The `run_daily_tasks` loop over the appointment list.  A stored date
that is truthy but fails `strptime` raises `ValueError`: the loop stops
there, leaving that appointment and all later ones untouched, and the
Boolean component records whether the loop ran to completion. -/
def runDailyList (today : PDate) : List Appointment → List Appointment × Bool
  | [] => ([], true)
  | app :: rest =>
    if app.date ≠ "" ∧ app.status ≠ "" ∧ strptimeYmd app.date = none then
      (app :: rest, false)
    else
      let p := runDailyList today rest
      (dailyAdvance today app :: p.1, p.2)

/-- Embeds `ScheduleSystem.run_daily_tasks`; `today` stands for
`datetime.now()`'s date.  The Boolean is `false` when the Python loop
raises `ValueError` partway through. -/
def ScheduleSystem.run_daily_tasks (st : ScheduleSystem) (today : PDate) :
    ScheduleSystem × Bool :=
  let p := runDailyList today st.appointments
  ({ st with appointments := p.1 }, p.2)

/-- The aggregates accumulated by `get_report_data`. -/
structure ReportData where
  total_revenue : ℚ
  total_paid : ℚ
  total_unpaid : ℚ
  total_bookings : Nat
  appointments : List Appointment
deriving DecidableEq, Repr

/-- The three possible outcomes of `get_report_data`: an uncaught
`ValueError` while parsing a stored appointment date, the `None` returned
when a range endpoint fails to parse, or the report dict. -/
inductive ReportOutcome where
  | raised
  | noData
  | ok (r : ReportData)
deriving DecidableEq, Repr

/-- The accumulation loop of `get_report_data`: every stored appointment
date is parsed first (`none` models the uncaught `ValueError`); an
appointment inside the inclusive range whose status is not `"Cancelled"`
is appended and contributes its fee to the aggregates. -/
def reportScan (start_dt end_dt : PDate) : List Appointment → Option ReportData
  | [] => some { total_revenue := 0, total_paid := 0, total_unpaid := 0,
                 total_bookings := 0, appointments := [] }
  | app :: rest =>
    match strptimeYmd app.date with
    | none => none
    | some d =>
      match reportScan start_dt end_dt rest with
      | none => none
      | some r =>
        if (start_dt.ble d && d.ble end_dt) && decide (app.status ≠ "Cancelled") then
          some { total_revenue := app.total_fee + r.total_revenue,
                 total_paid :=
                   (if app.payment_status = "Paid" then app.total_fee else 0) + r.total_paid,
                 total_unpaid :=
                   (if app.payment_status = "Paid" then 0 else app.total_fee) + r.total_unpaid,
                 total_bookings := r.total_bookings + 1,
                 appointments := app :: r.appointments }
        else some r

/-- Embeds `ScheduleSystem.get_report_data`. -/
def ScheduleSystem.get_report_data (st : ScheduleSystem)
    (start_date_str end_date_str : String) : ReportOutcome :=
  match strptimeYmd start_date_str, strptimeYmd end_date_str with
  | some sd, some ed =>
    match reportScan sd ed st.appointments with
    | none => ReportOutcome.raised
    | some r => ReportOutcome.ok r
  | _, _ => ReportOutcome.noData

/-- Python dict key lookup on a client record (first matching key). -/
def dictGet (c : Client) (k : String) : Option JVal :=
  (c.find? (fun p => decide (p.1 = k))).map (fun p => p.2)

/-- Python `d[k] = v` on a client record: replace the value in place if the
key is present, append the pair otherwise. -/
def dictInsert : Client → String → JVal → Client
  | [], k, v => [(k, v)]
  | p :: rest, k, v =>
    if p.1 = k then (k, v) :: rest else p :: dictInsert rest k v

/-- Python `c.update(new_info)`: assign every key of `new_info` in order. -/
def dictUpdate (c : Client) (new_info : Client) : Client :=
  new_info.foldl (fun acc p => dictInsert acc p.1 p.2) c

/-- The comparison `client['id'] == client_id` (a non-string or missing
`'id'` value never equals the string). -/
def clientHasId (client_id : String) (c : Client) : Bool :=
  decide (dictGet c "id" = some (JVal.str client_id))

/-- The `for i, client in enumerate(...)` search of `update_client`:
update the first client whose `'id'` equals `client_id`; `none` when no
client matches. -/
def updateFirstClient (client_id : String) (new_info : Client) :
    List Client → Option (List Client)
  | [] => none
  | c :: rest =>
    if clientHasId client_id c then some (dictUpdate c new_info :: rest)
    else
      match updateFirstClient client_id new_info rest with
      | some rest' => some (c :: rest')
      | none => none

/-- Embeds `ScheduleSystem.update_client`. -/
def ScheduleSystem.update_client (st : ScheduleSystem) (client_id : String)
    (new_info : Client) : Bool × ScheduleSystem :=
  match updateFirstClient client_id new_info st.clients with
  | some cs => (true, { st with clients := cs })
  | none => (false, st)

/-- Embeds `ScheduleSystem.delete_client`: the filtered list is assigned
to `self.clients` unconditionally; the Boolean reports whether it shrank. -/
def ScheduleSystem.delete_client (st : ScheduleSystem) (client_id : String) :
    Bool × ScheduleSystem :=
  (decide ((st.clients.filter (fun c => !(clientHasId client_id c))).length <
      st.clients.length),
    { st with clients := st.clients.filter (fun c => !(clientHasId client_id c)) })

/-- Embeds `ScheduleSystem.register_client`; `fresh_id` stands for
`str(uuid.uuid4())` and `now_ts` for the registration timestamp. -/
def ScheduleSystem.register_client (st : ScheduleSystem)
    (name dob email cellphone fresh_id now_ts : String) : Client × ScheduleSystem :=
  (([("id", JVal.str fresh_id), ("registration_date", JVal.str now_ts),
      ("name", JVal.str name), ("dob", JVal.str dob), ("email", JVal.str email),
      ("cellphone", JVal.str cellphone), ("comments", JVal.comments []),
      ("documents", JVal.documents [])] : Client),
    { st with clients := st.clients ++
        [[("id", JVal.str fresh_id), ("registration_date", JVal.str now_ts),
          ("name", JVal.str name), ("dob", JVal.str dob), ("email", JVal.str email),
          ("cellphone", JVal.str cellphone), ("comments", JVal.comments []),
          ("documents", JVal.documents [])]] })

/-- Embeds `ScheduleSystem.update_session_fee`; the argument models the
result of `float(new_fee)`, with `none` for the `ValueError` case. -/
def ScheduleSystem.update_session_fee (st : ScheduleSystem) (new_fee : Option ℚ) :
    Bool × ScheduleSystem :=
  match new_fee with
  | some fee => (true, { st with settings := { st.settings with session_fee := fee } })
  | none => (false, st)

/-- The default time slots of `_load_settings`. -/
def defaultTimeSlots : List String :=
  ["09:00", "09:30", "10:00", "10:30", "11:00", "11:30", "12:00", "12:30",
   "13:00", "13:30", "14:00", "14:30", "15:00", "15:30", "16:00"]

/-- The state of a freshly created store: no data files on disk, so empty
client and appointment collections and default settings. -/
def initState : ScheduleSystem :=
  { clients := [],
    settings := { session_fee := 50, time_slots := defaultTimeSlots },
    appointments := [] }

/-- One call to a mutating operation of the store, with arbitrary
arguments; the successor state is the operation's resulting state whether
the call succeeds or fails. -/
inductive Step : ScheduleSystem → ScheduleSystem → Prop where
  | make (st : ScheduleSystem) (d cid cname slot comment fid ts : String) :
      Step st (st.make_appointment d cid cname slot comment fid ts).2
  | edit (st : ScheduleSystem) (aid nd ns nc : String) :
      Step st (st.edit_appointment aid nd ns nc).2
  | delAppt (st : ScheduleSystem) (aid : String) :
      Step st (st.delete_appointment aid).2
  | pay (st : ScheduleSystem) (aid status : String) :
      Step st (st.update_appointment_payment_status aid status).2
  | slots (st : ScheduleSystem) (new_slots : List String) :
      Step st (st.set_time_slots new_slots).2
  | fee (st : ScheduleSystem) (new_fee : Option ℚ) :
      Step st (st.update_session_fee new_fee).2
  | daily (st : ScheduleSystem) (today : PDate) :
      Step st (st.run_daily_tasks today).1
  | register (st : ScheduleSystem) (name dob email cellphone fid ts : String) :
      Step st (st.register_client name dob email cellphone fid ts).2
  | updClient (st : ScheduleSystem) (cid : String) (new_info : Client) :
      Step st (st.update_client cid new_info).2
  | delClient (st : ScheduleSystem) (cid : String) :
      Step st (st.delete_client cid).2

/-- States reachable from the empty store by the store's operations. -/
inductive Reachable : ScheduleSystem → Prop where
  | base : Reachable initState
  | step {st st' : ScheduleSystem} : Reachable st → Step st st' → Reachable st'

/-- Whether an appointment occupies the given (date, slot) cell: it is on
that date, on that slot label, and not cancelled. -/
def occupies (date_str slot : String) (app : Appointment) : Bool :=
  decide (app.date = date_str) && decide (app.slot_number = slot) &&
    decide (app.status ≠ "Cancelled")

/-- The single stored appointment of C3's witness state. -/
def c3Appt : Appointment :=
  { id := "A", client_id := "c1", client_name := "Alice", date := "2024-01-01",
    slot_number := "09:00", payment_status := "Unpaid", total_fee := 50,
    status := "Booked", comment := "", timestamp := "t1" }

/-- The C3 witness state: the fresh store holding one booked appointment. -/
def c3State : ScheduleSystem := { initState with appointments := [c3Appt] }

/-- First appointment of the C4 counterexample: slot `09:00` on January 1. -/
def c4A : Appointment :=
  { id := "A", client_id := "c1", client_name := "Alice", date := "2024-01-01",
    slot_number := "09:00", payment_status := "Unpaid", total_fee := 50,
    status := "Booked", comment := "", timestamp := "t1" }

/-- Second appointment of the C4 counterexample: the same slot label
`09:00`, but on January 2. -/
def c4B : Appointment :=
  { c4A with id := "B", client_id := "c2", client_name := "Bob",
             date := "2024-01-02", timestamp := "t2" }

/-- State with both C4 appointments booked. -/
def c4State : ScheduleSystem := { initState with appointments := [c4A, c4B] }

/-- First appointment of the C4 witness state: slot `09:00` on January 1. -/
def c4Aw : Appointment :=
  { id := "A", client_id := "c1", client_name := "Alice", date := "2024-01-01",
    slot_number := "09:00", payment_status := "Unpaid", total_fee := 50,
    status := "Booked", comment := "", timestamp := "t1" }

/-- Second appointment of the C4 witness state: slot `09:30` on January 2. -/
def c4Bw : Appointment :=
  { c4Aw with id := "B", client_id := "c2", client_name := "Bob",
              date := "2024-01-02", slot_number := "09:30", timestamp := "t2" }

/-- State with both C4 witness appointments booked. -/
def c4StateW : ScheduleSystem := { initState with appointments := [c4Aw, c4Bw] }

/-- The appointment of C7's witness state: booked yesterday relative to the
witness's `today`. -/
def c7Appt : Appointment :=
  { id := "A", client_id := "c1", client_name := "Alice", date := "2024-01-04",
    slot_number := "09:00", payment_status := "Unpaid", total_fee := 50,
    status := "Booked", comment := "", timestamp := "t1" }

/-- The C7 witness state. -/
def c7State : ScheduleSystem := { initState with appointments := [c7Appt] }

/-- Selection predicate of the report: the stored date parses into the
inclusive range and the status is not `"Cancelled"`. -/
def inReportRange (sd ed : PDate) (a : Appointment) : Bool :=
  match strptimeYmd a.date with
  | some d => (sd.ble d && d.ble ed) && decide (a.status ≠ "Cancelled")
  | none => false

/-- First appointment of the C8 witness state: fee 50, paid. -/
def c8A : Appointment :=
  { id := "A", client_id := "c1", client_name := "Alice", date := "2024-01-05",
    slot_number := "09:00", payment_status := "Paid", total_fee := 50,
    status := "Booked", comment := "", timestamp := "t1" }

/-- Second appointment of the C8 witness state: fee 70, unpaid. -/
def c8B : Appointment :=
  { id := "B", client_id := "c2", client_name := "Bob", date := "2024-01-05",
    slot_number := "09:30", payment_status := "Unpaid", total_fee := 70,
    status := "Pending", comment := "", timestamp := "t2" }

/-- The C8 witness state. -/
def c8State : ScheduleSystem := { initState with appointments := [c8A, c8B] }

/-- The stored client of C10's witness. -/
def c10Client : Client := [("id", JVal.str "c1"), ("name", JVal.str "Alice")]

/-- The C10 witness state. -/
def c10State : ScheduleSystem := { initState with clients := [c10Client] }

/-- The C10 update dict: it rewrites the `'id'` key itself. -/
def c10New : Client := [("id", JVal.str "c2"), ("name", JVal.str "Bob")]

/-- Like `Step`, but an edit step is only taken when its target slot is
available on the target date, or the target date equals the edited
appointment's current date — carving out exactly the slot-label-only
exemption of `edit_appointment`. -/
inductive SafeStep : ScheduleSystem → ScheduleSystem → Prop where
  | make (st : ScheduleSystem) (d cid cname slot comment fid ts : String) :
      SafeStep st (st.make_appointment d cid cname slot comment fid ts).2
  | edit (st : ScheduleSystem) (aid nd ns nc : String)
      (h : ∀ a, st.appointments.find? (fun app => decide (app.id = aid)) = some a →
        ns ∈ st.get_available_slots nd ∨ nd = a.date) :
      SafeStep st (st.edit_appointment aid nd ns nc).2
  | delAppt (st : ScheduleSystem) (aid : String) :
      SafeStep st (st.delete_appointment aid).2
  | pay (st : ScheduleSystem) (aid status : String) :
      SafeStep st (st.update_appointment_payment_status aid status).2
  | slots (st : ScheduleSystem) (new_slots : List String) :
      SafeStep st (st.set_time_slots new_slots).2
  | fee (st : ScheduleSystem) (new_fee : Option ℚ) :
      SafeStep st (st.update_session_fee new_fee).2
  | daily (st : ScheduleSystem) (today : PDate) :
      SafeStep st (st.run_daily_tasks today).1
  | register (st : ScheduleSystem) (name dob email cellphone fid ts : String) :
      SafeStep st (st.register_client name dob email cellphone fid ts).2
  | updClient (st : ScheduleSystem) (cid : String) (new_info : Client) :
      SafeStep st (st.update_client cid new_info).2
  | delClient (st : ScheduleSystem) (cid : String) :
      SafeStep st (st.delete_client cid).2

/-- States reachable from the empty store when every edit stays clear of
the slot-label exemption hole. -/
inductive SafeReachable : ScheduleSystem → Prop where
  | base : SafeReachable initState
  | step {st st' : ScheduleSystem} : SafeReachable st → SafeStep st st' → SafeReachable st'

/-- The state obtained by booking slot `09:00` on two different dates and
then editing the first booking onto the second booking's date while
keeping its slot label: the exemption lets the edit through. -/
def c2Bad : ScheduleSystem :=
  (((initState.make_appointment "2024-01-01" "c1" "Alice" "09:00" "" "A" "t1").2.make_appointment
      "2024-01-02" "c2" "Bob" "09:00" "" "B" "t2").2.edit_appointment
    "A" "2024-01-02" "09:00" "x").2

/-- The state obtained by configuring a single slot, booking it, and then
re-configuring the slot list to a different single slot: the booked slot
label is no longer configured. -/
def c5Bad : ScheduleSystem :=
  (((initState.set_time_slots ["09:00"]).2.make_appointment
      "2024-01-01" "c1" "Alice" "09:00" "" "A" "t1").2.set_time_slots ["10:00"]).2

/-! ### Lemmas and claim theorems -/

lemma mem_bookedSlots {st : ScheduleSystem} {d s : String} :
    s ∈ st.bookedSlots d ↔
      ∃ a ∈ st.appointments, a.date = d ∧ a.status ≠ "Cancelled" ∧ a.slot_number = s := by
  constructor
  · intro h
    rcases List.mem_map.1 h with ⟨a, hf, rfl⟩
    rcases List.mem_filter.1 hf with ⟨ha, hp⟩
    have hp' : a.date = d ∧ a.status ≠ "Cancelled" := by simpa using hp
    exact ⟨a, ha, hp'.1, hp'.2, rfl⟩
  · rintro ⟨a, ha, h1, h2, rfl⟩
    exact List.mem_map.2 ⟨a, List.mem_filter.2 ⟨ha, by simpa using And.intro h1 h2⟩, rfl⟩

lemma mem_avail {st : ScheduleSystem} {d s : String} :
    s ∈ st.get_available_slots d ↔ s ∈ st.settings.time_slots ∧ s ∉ st.bookedSlots d := by
  simp [ScheduleSystem.get_available_slots, List.mem_filter]

lemma occupies_iff {d s : String} {a : Appointment} :
    occupies d s a = true ↔ a.date = d ∧ a.slot_number = s ∧ a.status ≠ "Cancelled" := by
  simp [occupies, and_assoc]

lemma occupies_false_of_avail {st : ScheduleSystem} {d s : String}
    (h : s ∈ st.get_available_slots d) :
    ∀ a ∈ st.appointments, occupies d s a = false := by
  intro a ha
  rcases mem_avail.1 h with ⟨-, hnb⟩
  cases hocc : occupies d s a
  · rfl
  · rcases occupies_iff.1 hocc with ⟨h1, h2, h3⟩
    exact absurd (mem_bookedSlots.2 ⟨a, ha, h1, h3, h2⟩) hnb

/-- Claim C1: booking an unavailable slot fails with a descriptive message
and leaves the state (in particular the appointment collection) unchanged;
booking an available slot succeeds and appends exactly one appointment with
status `"Booked"`, payment status `"Unpaid"` and fee equal to the current
session fee, leaving all pre-existing appointments unchanged. -/
theorem make_appointment_spec (st : ScheduleSystem)
    (d cid cname slot comment fid ts : String) :
    (slot ∉ st.get_available_slots d →
      st.make_appointment d cid cname slot comment fid ts =
        ((false, "Slot " ++ slot ++ " is not available for this date."), st)) ∧
    (slot ∈ st.get_available_slots d →
      st.make_appointment d cid cname slot comment fid ts =
        ((true, "Appointment booked successfully."),
          { st with appointments := st.appointments ++
              [{ id := fid, client_id := cid, client_name := cname, date := d,
                 slot_number := slot, payment_status := "Unpaid",
                 total_fee := st.get_session_fee, status := "Booked",
                 comment := comment, timestamp := ts }] })) := by
  constructor
  · intro h
    simp [ScheduleSystem.make_appointment, h]
  · intro h
    simp [ScheduleSystem.make_appointment, h]

/-- Witness for C1: a concrete successful booking from the fresh store. -/
theorem make_appointment_spec_witness :
    initState.make_appointment "2024-01-05" "c1" "Alice" "09:00" "hello" "id-1" "ts-1" =
      ((true, "Appointment booked successfully."),
        { initState with appointments :=
            [{ id := "id-1", client_id := "c1", client_name := "Alice",
               date := "2024-01-05", slot_number := "09:00", payment_status := "Unpaid",
               total_fee := initState.get_session_fee, status := "Booked",
               comment := "hello", timestamp := "ts-1" }] }) :=
  (make_appointment_spec initState "2024-01-05" "c1" "Alice" "09:00" "hello" "id-1" "ts-1").2
    (by decide)

/-- Claim C6: after a successful booking of a slot on a date, that slot no
longer appears in the availability query for that date on the new state. -/
theorem make_appointment_removes_slot (st : ScheduleSystem)
    (d cid cname slot comment fid ts : String)
    (h : (st.make_appointment d cid cname slot comment fid ts).1.1 = true) :
    slot ∉ (st.make_appointment d cid cname slot comment fid ts).2.get_available_slots d := by
  by_cases hav : slot ∈ st.get_available_slots d
  · rw [(make_appointment_spec st d cid cname slot comment fid ts).2 hav]
    intro hmem
    rcases mem_avail.1 hmem with ⟨-, hnb⟩
    apply hnb
    apply mem_bookedSlots.2
    exact ⟨_, List.mem_append_right _ (List.mem_singleton_self _), rfl, by simp, rfl⟩
  · rw [(make_appointment_spec st d cid cname slot comment fid ts).1 hav] at h
    simp at h

/-- Witness for C6: the concrete booking of C1's witness removes the slot. -/
theorem make_appointment_removes_slot_witness :
    "09:00" ∉
      (initState.make_appointment "2024-01-05" "c1" "Alice" "09:00" "" "id-1" "t").2.get_available_slots
        "2024-01-05" :=
  make_appointment_removes_slot initState "2024-01-05" "c1" "Alice" "09:00" "" "id-1" "t"
    (by decide)

/-- Claim C9: deleting a client leaves the appointment collection
identical: no appointment record (including those referring to the deleted
client) is removed or altered. -/
theorem delete_client_preserves_appointments (st : ScheduleSystem) (client_id : String) :
    (st.delete_client client_id).2.appointments = st.appointments := rfl

lemma find?_middle {p : Appointment → Bool} {pre : List Appointment} {a : Appointment}
    {post : List Appointment} (hpre : ∀ b ∈ pre, p b = false) (ha : p a = true) :
    (pre ++ a :: post).find? p = some a := by
  induction pre with
  | nil => simp [List.find?, ha]
  | cons x xs ih =>
    have hx := hpre x (List.mem_cons_self x xs)
    simpa [List.find?, hx] using ih (fun b hb => hpre b (List.mem_cons_of_mem x hb))

lemma editFirst_append {aid nd ns nc : String} {pre : List Appointment} {a : Appointment}
    {post : List Appointment} (hpre : ∀ b ∈ pre, b.id ≠ aid) (ha : a.id = aid) :
    editFirst aid nd ns nc (pre ++ a :: post) =
      pre ++ { a with date := nd, slot_number := ns, comment := nc } :: post := by
  induction pre with
  | nil => simp [editFirst, ha]
  | cons x xs ih =>
    have hx := hpre x (List.mem_cons_self x xs)
    simp [editFirst, hx, ih (fun b hb => hpre b (List.mem_cons_of_mem x hb))]

/-- Claim C3: `edit_appointment` fails when no appointment has the given
id; with the target appointment being the first one carrying the id, it
fails when the new slot is not available on the new date and differs from
the appointment's own current slot label (the exemption compares slot
labels only, not dates); otherwise it succeeds and sets that appointment's
date, slot and comment to the new values in place. -/
theorem edit_appointment_spec (st : ScheduleSystem) (aid nd ns nc : String) :
    ((∀ a ∈ st.appointments, a.id ≠ aid) →
      st.edit_appointment aid nd ns nc = ((false, "Appointment not found."), st)) ∧
    (∀ pre a post, st.appointments = pre ++ a :: post → (∀ b ∈ pre, b.id ≠ aid) →
      a.id = aid →
      ((ns ∉ st.get_available_slots nd ∧ ns ≠ a.slot_number →
        st.edit_appointment aid nd ns nc =
          ((false, "Slot " ++ ns ++ " is not available on " ++ nd ++ "."), st)) ∧
       (ns ∈ st.get_available_slots nd ∨ ns = a.slot_number →
        st.edit_appointment aid nd ns nc =
          ((true, "Appointment successfully updated."),
            { st with appointments :=
                pre ++ { a with date := nd, slot_number := ns, comment := nc } :: post })))) := by
  constructor
  · intro h
    have hf : st.appointments.find? (fun app => decide (app.id = aid)) = none :=
      List.find?_eq_none.2 (fun a ha => by simp [h a ha])
    unfold ScheduleSystem.edit_appointment
    rw [hf]
  · intro pre a post hsplit hpre ha
    have hf : st.appointments.find? (fun app => decide (app.id = aid)) = some a := by
      rw [hsplit]
      exact find?_middle (fun b hb => by simp [hpre b hb]) (by simp [ha])
    constructor
    · intro hcond
      unfold ScheduleSystem.edit_appointment
      rw [hf]
      simp only [if_pos hcond]
    · intro hcond
      have hncond : ¬ (ns ∉ st.get_available_slots nd ∧ ns ≠ a.slot_number) := by
        rcases hcond with h1 | h1
        · exact fun hc => hc.1 h1
        · exact fun hc => hc.2 h1
      unfold ScheduleSystem.edit_appointment
      rw [hf]
      simp only [if_neg hncond]
      rw [hsplit, editFirst_append hpre ha]

/-- Witness for C3: a concrete successful edit to an available slot. -/
theorem edit_appointment_spec_witness :
    c3State.edit_appointment "A" "2024-01-03" "10:00" "note" =
      ((true, "Appointment successfully updated."),
        { c3State with appointments :=
            [{ c3Appt with date := "2024-01-03", slot_number := "10:00",
                           comment := "note" }] }) :=
  ((edit_appointment_spec c3State "A" "2024-01-03" "10:00" "note").2 [] c3Appt [] rfl
    (by simp) rfl).2 (Or.inl (by decide))

/-- Counterexample to claim C4 as stated: editing appointment `A` onto the
(date, slot) pair of the distinct non-cancelled appointment `B` does NOT
fail when the target slot label equals `A`'s own current slot label — the
slot-label-only exemption lets the edit through and the state changes,
double-booking `B`'s cell. -/
theorem edit_onto_occupied_pair_can_succeed :
    c4A ∈ c4State.appointments ∧ c4B ∈ c4State.appointments ∧ c4A ≠ c4B ∧
    c4A.status ≠ "Cancelled" ∧ c4B.status ≠ "Cancelled" ∧
    (c4State.edit_appointment c4A.id c4B.date c4B.slot_number "x").1.1 = true ∧
    (c4State.edit_appointment c4A.id c4B.date c4B.slot_number "x").2 ≠ c4State := by
  decide

/-- Claim C4 (amended): editing appointment `A` onto the (date, slot) pair
of a distinct non-cancelled appointment `B` fails and leaves the whole
state — in particular both `A` and `B` — unchanged, PROVIDED the target
slot label differs from `A`'s own current slot label (when the labels are
equal, the exemption lets the edit succeed, as the counterexample shows). -/
theorem edit_to_occupied_slot_fails (st : ScheduleSystem) (A B : Appointment) (nc : String)
    (hfind : st.appointments.find? (fun app => decide (app.id = A.id)) = some A)
    (hB : B ∈ st.appointments) (_hAB : A ≠ B)
    (_hAnc : A.status ≠ "Cancelled") (hBnc : B.status ≠ "Cancelled")
    (hslot : B.slot_number ≠ A.slot_number) :
    st.edit_appointment A.id B.date B.slot_number nc =
      ((false, "Slot " ++ B.slot_number ++ " is not available on " ++ B.date ++ "."), st) := by
  have hnav : B.slot_number ∉ st.get_available_slots B.date := by
    intro hmem
    rcases mem_avail.1 hmem with ⟨-, hnb⟩
    exact hnb (mem_bookedSlots.2 ⟨B, hB, rfl, hBnc, rfl⟩)
  unfold ScheduleSystem.edit_appointment
  rw [hfind]
  simp only [if_pos (And.intro hnav hslot)]

/-- Witness for the amended C4: a concrete rejected edit onto an occupied
(date, slot) pair with a different slot label. -/
theorem edit_to_occupied_slot_fails_witness :
    c4StateW.edit_appointment c4Aw.id c4Bw.date c4Bw.slot_number "x" =
      ((false, "Slot " ++ c4Bw.slot_number ++ " is not available on " ++ c4Bw.date ++ "."),
        c4StateW) :=
  edit_to_occupied_slot_fails c4StateW c4Aw c4Bw "x" (by decide) (by decide) (by decide)
    (by decide) (by decide) (by decide)

lemma PDate.blt_irrefl (a : PDate) : a.blt a = false := by
  simp [PDate.blt]

lemma PDate.blt_asymm {a b : PDate} (h : a.blt b = true) : b.blt a = false := by
  simp only [PDate.blt, Bool.or_eq_true, Bool.and_eq_true, decide_eq_true_eq,
    Bool.or_eq_false_iff, Bool.and_eq_false_iff, decide_eq_false_iff_not] at h ⊢
  omega

lemma PDate.ne_of_blt {a b : PDate} (h : a.blt b = true) : a ≠ b := by
  intro hEq
  rw [hEq, PDate.blt_irrefl] at h
  exact Bool.false_ne_true h

lemma strptimeYmd_ne_empty {s : String} {d : PDate} (h : strptimeYmd s = some d) :
    s ≠ "" := by
  intro hEq
  rw [hEq] at h
  exact Option.noConfusion h

/-- The `run_daily_tasks` loop runs to completion and advances every
appointment independently once every stored date string parses. -/
lemma runDailyList_wf {today : PDate} {l : List Appointment}
    (h : ∀ a ∈ l, (strptimeYmd a.date).isSome) :
    runDailyList today l = (l.map (dailyAdvance today), true) := by
  induction l with
  | nil => rfl
  | cons a rest ih =>
    have ha : (strptimeYmd a.date).isSome := h a (List.mem_cons_self a rest)
    have hnotnone : ¬ strptimeYmd a.date = none := by
      intro hn
      rw [hn] at ha
      exact Bool.false_ne_true ha
    have hrest := ih (fun b hb => h b (List.mem_cons_of_mem a hb))
    simp [runDailyList, hnotnone, hrest]

/-- Claim C7: the daily status-advancement pass maps every appointment with
status `"Booked"` dated strictly before today to `"Completed"`, every one
with status `"Booked"` dated today to `"Pending"`, and leaves every other
appointment entirely unchanged — stated for states whose stored appointment
dates are well-formed (§3 records dates as calendar dates). -/
theorem run_daily_tasks_spec (st : ScheduleSystem) (today : PDate)
    (hw : ∀ a ∈ st.appointments, (strptimeYmd a.date).isSome)
    (a : Appointment) (d : PDate) (hd : strptimeYmd a.date = some d) :
    (st.run_daily_tasks today).2 = true ∧
    (st.run_daily_tasks today).1.appointments = st.appointments.map (dailyAdvance today) ∧
    dailyAdvance today a =
      (if a.status = "Booked" ∧ d.blt today = true then { a with status := "Completed" }
       else if a.status = "Booked" ∧ d = today then { a with status := "Pending" }
       else a) := by
  have hrun := @runDailyList_wf today st.appointments hw
  refine ⟨?_, ?_, ?_⟩
  · simp [ScheduleSystem.run_daily_tasks, hrun]
  · simp [ScheduleSystem.run_daily_tasks, hrun]
  · have hne : a.date ≠ "" := strptimeYmd_ne_empty hd
    by_cases hbooked : a.status = "Booked"
    · have hsne : a.status ≠ "" := by rw [hbooked]; simp
      by_cases hlt : d.blt today = true
      · simp [dailyAdvance, hne, hsne, hd, hbooked, hlt]
      · by_cases heq : d = today
        · simp [dailyAdvance, hne, hsne, hd, hbooked, hlt, heq]
        · simp [dailyAdvance, hne, hsne, hd, hbooked, hlt, heq]
    · by_cases hsne : a.status = ""
      · simp [dailyAdvance, hsne, hbooked]
      · simp [dailyAdvance, hne, hsne, hd, hbooked]

/-- Witness for C7: running the pass with today = 2024-01-05 completes and
marks the yesterday-dated booked appointment `"Completed"`. -/
theorem run_daily_tasks_spec_witness :
    (c7State.run_daily_tasks ⟨2024, 1, 5⟩).2 = true ∧
    (c7State.run_daily_tasks ⟨2024, 1, 5⟩).1.appointments =
      c7State.appointments.map (dailyAdvance ⟨2024, 1, 5⟩) ∧
    dailyAdvance ⟨2024, 1, 5⟩ c7Appt =
      (if c7Appt.status = "Booked" ∧ (PDate.blt ⟨2024, 1, 4⟩ ⟨2024, 1, 5⟩) = true then
        { c7Appt with status := "Completed" }
       else if c7Appt.status = "Booked" ∧ (⟨2024, 1, 4⟩ : PDate) = ⟨2024, 1, 5⟩ then
        { c7Appt with status := "Pending" }
       else c7Appt) :=
  run_daily_tasks_spec c7State ⟨2024, 1, 5⟩ (by decide) c7Appt ⟨2024, 1, 4⟩ (by decide)

/-- The report accumulation loop equals filtering plus summing, whenever
every stored date parses. -/
lemma reportScan_wf {sd ed : PDate} {l : List Appointment}
    (h : ∀ a ∈ l, (strptimeYmd a.date).isSome) :
    reportScan sd ed l = some
      { total_revenue := ((l.filter (inReportRange sd ed)).map (fun a => a.total_fee)).sum,
        total_paid := (((l.filter (inReportRange sd ed)).filter
            (fun a => decide (a.payment_status = "Paid"))).map (fun a => a.total_fee)).sum,
        total_unpaid := (((l.filter (inReportRange sd ed)).filter
            (fun a => decide (a.payment_status ≠ "Paid"))).map (fun a => a.total_fee)).sum,
        total_bookings := (l.filter (inReportRange sd ed)).length,
        appointments := l.filter (inReportRange sd ed) } := by
  induction l with
  | nil => rfl
  | cons a rest ih =>
    have ha := h a (List.mem_cons_self a rest)
    rcases Option.isSome_iff_exists.1 ha with ⟨d, hd⟩
    have hrest := ih (fun b hb => h b (List.mem_cons_of_mem a hb))
    have hcnd : inReportRange sd ed a =
        ((sd.ble d && d.ble ed) && decide (a.status ≠ "Cancelled")) := by
      simp [inReportRange, hd]
    cases hin : inReportRange sd ed a
    · have hc : ((sd.ble d && d.ble ed) && decide (a.status ≠ "Cancelled")) = false := by
        rw [← hcnd]; exact hin
      simp only [reportScan, hd, hrest]
      rw [hc]
      simp [List.filter_cons, hin]
    · have hc : ((sd.ble d && d.ble ed) && decide (a.status ≠ "Cancelled")) = true := by
        rw [← hcnd]; exact hin
      by_cases hpaid : a.payment_status = "Paid"
      · simp only [reportScan, hd, hrest]
        rw [hc]
        simp [List.filter_cons, hin, hpaid]
      · simp only [reportScan, hd, hrest]
        rw [hc]
        simp [List.filter_cons, hin, hpaid]

/-- Claim C8: `get_report_data` returns the null signal when either input
date string fails to parse; otherwise it returns exactly the non-cancelled
appointments whose date lies in the inclusive range, with total revenue the
sum of their fees, total paid the sum over those with payment status
`"Paid"`, total unpaid the sum over the rest, and the booking count their
number — stated for states whose stored appointment dates are well-formed
(§3 records dates as calendar dates). -/
theorem get_report_data_spec (st : ScheduleSystem) (s e : String) (sd ed : PDate) :
    ((strptimeYmd s = none ∨ strptimeYmd e = none) →
      st.get_report_data s e = ReportOutcome.noData) ∧
    (strptimeYmd s = some sd → strptimeYmd e = some ed →
      (∀ a ∈ st.appointments, (strptimeYmd a.date).isSome) →
      st.get_report_data s e = ReportOutcome.ok
        { total_revenue :=
            ((st.appointments.filter (inReportRange sd ed)).map (fun a => a.total_fee)).sum,
          total_paid := (((st.appointments.filter (inReportRange sd ed)).filter
              (fun a => decide (a.payment_status = "Paid"))).map (fun a => a.total_fee)).sum,
          total_unpaid := (((st.appointments.filter (inReportRange sd ed)).filter
              (fun a => decide (a.payment_status ≠ "Paid"))).map (fun a => a.total_fee)).sum,
          total_bookings := (st.appointments.filter (inReportRange sd ed)).length,
          appointments := st.appointments.filter (inReportRange sd ed) }) := by
  constructor
  · intro h
    unfold ScheduleSystem.get_report_data
    rcases h with h | h
    · rw [h]
    · rw [h]
      cases strptimeYmd s <;> rfl
  · intro hs he hw
    have hscan := @reportScan_wf sd ed st.appointments hw
    simp [ScheduleSystem.get_report_data, hs, he, hscan]

/-- Witness for C8: both appointments of the witness state (fees 50 paid
and 70 unpaid) fall in the queried range, so the report selects exactly
them and sums their fees. -/
theorem get_report_data_spec_witness :
    c8State.get_report_data "2024-01-01" "2024-01-31" =
      ReportOutcome.ok
        { total_revenue := ((c8State.appointments.filter
              (inReportRange ⟨2024, 1, 1⟩ ⟨2024, 1, 31⟩)).map (fun a => a.total_fee)).sum,
          total_paid := (((c8State.appointments.filter
                (inReportRange ⟨2024, 1, 1⟩ ⟨2024, 1, 31⟩)).filter
              (fun a => decide (a.payment_status = "Paid"))).map (fun a => a.total_fee)).sum,
          total_unpaid := (((c8State.appointments.filter
                (inReportRange ⟨2024, 1, 1⟩ ⟨2024, 1, 31⟩)).filter
              (fun a => decide (a.payment_status ≠ "Paid"))).map (fun a => a.total_fee)).sum,
          total_bookings := (c8State.appointments.filter
              (inReportRange ⟨2024, 1, 1⟩ ⟨2024, 1, 31⟩)).length,
          appointments := c8State.appointments.filter
              (inReportRange ⟨2024, 1, 1⟩ ⟨2024, 1, 31⟩) } :=
  (get_report_data_spec c8State "2024-01-01" "2024-01-31" ⟨2024, 1, 1⟩ ⟨2024, 1, 31⟩).2
    (by decide) (by decide) (by decide)

lemma dictGet_cons {p : String × JVal} {c : Client} {k : String} :
    dictGet (p :: c) k = if p.1 = k then some p.2 else dictGet c k := by
  by_cases h : p.1 = k
  · simp [dictGet, List.find?, h]
  · simp [dictGet, List.find?, h]

lemma dictGet_dictInsert_self (c : Client) (k : String) (v : JVal) :
    dictGet (dictInsert c k v) k = some v := by
  induction c with
  | nil => simp [dictInsert, dictGet_cons]
  | cons p rest ih =>
    by_cases h : p.1 = k
    · simp [dictInsert, h, dictGet_cons]
    · simp [dictInsert, h, dictGet_cons, ih]

lemma dictGet_dictInsert_ne {c : Client} {k k' : String} (v : JVal) (h : k' ≠ k) :
    dictGet (dictInsert c k v) k' = dictGet c k' := by
  induction c with
  | nil => simp [dictInsert, dictGet_cons, Ne.symm h]
  | cons p rest ih =>
    by_cases hp : p.1 = k
    · simp [dictInsert, hp, dictGet_cons, Ne.symm h]
    · simp [dictInsert, hp, dictGet_cons, ih]

lemma dictGet_eq_none {c : Client} {k : String} (h : k ∉ c.map Prod.fst) :
    dictGet c k = none := by
  induction c with
  | nil => rfl
  | cons p rest ih =>
    simp only [List.map_cons, List.mem_cons] at h
    push_neg at h
    rw [dictGet_cons, if_neg (fun hh => h.1 hh.symm)]
    exact ih h.2

/-- Python dict semantics of `c.update(new_info)` at the lookup level: a
key of `new_info` gets `new_info`'s value, any other key keeps `c`'s. -/
lemma dictGet_dictUpdate (new_info c : Client) (k : String)
    (hnodup : (new_info.map Prod.fst).Nodup) :
    dictGet (dictUpdate c new_info) k =
      if (dictGet new_info k).isSome then dictGet new_info k else dictGet c k := by
  induction new_info generalizing c with
  | nil => simp [dictUpdate, dictGet]
  | cons p rest ih =>
    rw [List.map_cons] at hnodup
    have hnrest : (rest.map Prod.fst).Nodup := hnodup.of_cons
    have hp : p.1 ∉ rest.map Prod.fst := (List.nodup_cons.1 hnodup).1
    have hstep : dictUpdate c (p :: rest) = dictUpdate (dictInsert c p.1 p.2) rest := rfl
    rw [hstep, ih (dictInsert c p.1 p.2) hnrest]
    by_cases hk : p.1 = k
    · have hrest_none : dictGet rest k = none := dictGet_eq_none (by rw [← hk]; exact hp)
      rw [hrest_none]
      subst hk
      simp [dictGet_cons, dictGet_dictInsert_self]
    · have h1 : dictGet (dictInsert c p.1 p.2) k = dictGet c k :=
        dictGet_dictInsert_ne p.2 (fun hh => hk hh.symm)
      rw [h1, dictGet_cons, if_neg hk]

lemma updateFirstClient_append {cid : String} {new_info : Client} {pre : List Client}
    {c : Client} {post : List Client}
    (hpre : ∀ c' ∈ pre, clientHasId cid c' = false)
    (hc : clientHasId cid c = true) :
    updateFirstClient cid new_info (pre ++ c :: post) =
      some (pre ++ dictUpdate c new_info :: post) := by
  induction pre with
  | nil => simp [updateFirstClient, hc]
  | cons x xs ih =>
    have hx := hpre x (List.mem_cons_self x xs)
    simp [updateFirstClient, hx, ih (fun b hb => hpre b (List.mem_cons_of_mem x hb))]

/-- Claim C10: `update_client` on a stored client (the first one carrying
the id) succeeds and replaces, inside that client's dict, the value of
every key appearing in the update dict — the `'id'` key included — while
keys absent from the update dict keep their values, and all other clients
(and the appointment collection) are untouched. -/
theorem update_client_spec (st : ScheduleSystem) (cid : String) (new_info : Client)
    (k : String) (pre : List Client) (c : Client) (post : List Client)
    (hsplit : st.clients = pre ++ c :: post)
    (hpre : ∀ c' ∈ pre, clientHasId cid c' = false)
    (hc : clientHasId cid c = true)
    (hnodup : (new_info.map Prod.fst).Nodup) :
    (st.update_client cid new_info).1 = true ∧
    (st.update_client cid new_info).2.clients = pre ++ dictUpdate c new_info :: post ∧
    (st.update_client cid new_info).2.appointments = st.appointments ∧
    dictGet (dictUpdate c new_info) k =
      (if (dictGet new_info k).isSome then dictGet new_info k else dictGet c k) := by
  have hupd : updateFirstClient cid new_info st.clients =
      some (pre ++ dictUpdate c new_info :: post) := by
    rw [hsplit]
    exact updateFirstClient_append hpre hc
  refine ⟨?_, ?_, ?_, dictGet_dictUpdate new_info c k hnodup⟩
  · simp [ScheduleSystem.update_client, hupd]
  · simp [ScheduleSystem.update_client, hupd]
  · simp [ScheduleSystem.update_client, hupd]

/-- Witness for C10: a concrete update whose dict contains the `'id'` key,
so the client's identifier itself is replaced. -/
theorem update_client_spec_witness :
    (c10State.update_client "c1" c10New).1 = true ∧
    (c10State.update_client "c1" c10New).2.clients = [] ++ dictUpdate c10Client c10New :: [] ∧
    (c10State.update_client "c1" c10New).2.appointments = c10State.appointments ∧
    dictGet (dictUpdate c10Client c10New) "id" =
      (if (dictGet c10New "id").isSome then dictGet c10New "id" else dictGet c10Client "id") :=
  update_client_spec c10State "c1" c10New "id" [] c10Client [] rfl (by simp) (by decide)
    (by decide)

lemma make_not_avail_eq {st : ScheduleSystem} {d0 cid cname slot comment fid ts : String}
    (hav : slot ∉ st.get_available_slots d0) :
    st.make_appointment d0 cid cname slot comment fid ts =
      ((false, "Slot " ++ slot ++ " is not available for this date."), st) := by
  simp [ScheduleSystem.make_appointment, hav]

lemma make_avail_eq {st : ScheduleSystem} {d0 cid cname slot comment fid ts : String}
    (hav : slot ∈ st.get_available_slots d0) :
    st.make_appointment d0 cid cname slot comment fid ts =
      ((true, "Appointment booked successfully."),
        { st with appointments := st.appointments ++
            [{ id := fid, client_id := cid, client_name := cname, date := d0,
               slot_number := slot, payment_status := "Unpaid",
               total_fee := st.get_session_fee, status := "Booked",
               comment := comment, timestamp := ts }] }) := by
  simp [ScheduleSystem.make_appointment, hav]

lemma edit_none_eq {st : ScheduleSystem} {aid nd ns nc : String}
    (hf : st.appointments.find? (fun app => decide (app.id = aid)) = none) :
    st.edit_appointment aid nd ns nc = ((false, "Appointment not found."), st) := by
  unfold ScheduleSystem.edit_appointment
  rw [hf]

lemma edit_fail_eq {st : ScheduleSystem} {aid nd ns nc : String} {a : Appointment}
    (hf : st.appointments.find? (fun app => decide (app.id = aid)) = some a)
    (hcond : ns ∉ st.get_available_slots nd ∧ ns ≠ a.slot_number) :
    st.edit_appointment aid nd ns nc =
      ((false, "Slot " ++ ns ++ " is not available on " ++ nd ++ "."), st) := by
  unfold ScheduleSystem.edit_appointment
  rw [hf]
  simp only [if_pos hcond]

lemma edit_success_eq {st : ScheduleSystem} {aid nd ns nc : String} {a : Appointment}
    (hf : st.appointments.find? (fun app => decide (app.id = aid)) = some a)
    (hcond : ¬ (ns ∉ st.get_available_slots nd ∧ ns ≠ a.slot_number)) :
    st.edit_appointment aid nd ns nc =
      ((true, "Appointment successfully updated."),
        { st with appointments := editFirst aid nd ns nc st.appointments }) := by
  unfold ScheduleSystem.edit_appointment
  rw [hf]
  simp only [if_neg hcond]

lemma find?_eq_some_split {p : Appointment → Bool} {l : List Appointment} {a : Appointment}
    (h : l.find? p = some a) : ∃ pre post, l = pre ++ a :: post ∧ ∀ b ∈ pre, p b = false := by
  induction l with
  | nil => cases h
  | cons x xs ih =>
    cases hx : p x
    · simp [List.find?, hx] at h
      rcases ih h with ⟨pre, post, rfl, hpre⟩
      refine ⟨x :: pre, post, rfl, ?_⟩
      intro b hb
      rcases List.mem_cons.1 hb with rfl | hb
      · exact hx
      · exact hpre b hb
    · simp [List.find?, hx] at h
      exact ⟨[], xs, by simp [h], by simp⟩

lemma occupies_dailyAdvance {d s : String} {today : PDate} {x : Appointment} :
    occupies d s (dailyAdvance today x) = occupies d s x := by
  by_cases h1 : x.date ≠ "" ∧ x.status ≠ ""
  · simp only [dailyAdvance, if_pos h1]
    cases hp : strptimeYmd x.date with
    | none => rfl
    | some dd =>
      by_cases h2 : dd.blt today ∧ x.status = "Booked"
      · simp only [if_pos h2]
        simp [occupies, h2.2]
      · by_cases h3 : dd = today ∧ x.status = "Booked"
        · simp only [if_neg h2, if_pos h3]
          simp [occupies, h3.2]
        · simp only [if_neg h2, if_neg h3]
  · simp only [dailyAdvance, if_neg h1]

lemma countP_runDailyList {d s : String} {today : PDate} {l : List Appointment} :
    ((runDailyList today l).1).countP (occupies d s) = l.countP (occupies d s) := by
  induction l with
  | nil => rfl
  | cons x xs ih =>
    by_cases hc : x.date ≠ "" ∧ x.status ≠ "" ∧ strptimeYmd x.date = none
    · simp [runDailyList, hc]
    · simp [runDailyList, hc, List.countP_cons, ih, occupies_dailyAdvance]

lemma countP_setPaymentFirst {d s : String} {aid status : String} {l : List Appointment} :
    (setPaymentFirst aid status l).countP (occupies d s) = l.countP (occupies d s) := by
  induction l with
  | nil => rfl
  | cons x xs ih =>
    by_cases hx : x.id = aid
    · simp [setPaymentFirst, hx, List.countP_cons, occupies]
    · simp [setPaymentFirst, hx, List.countP_cons, ih]

/-- One safe step preserves the at-most-one-occupant property. -/
lemma countP_le_one_step {st st' : ScheduleSystem} (hs : SafeStep st st')
    (h : ∀ d s, st.appointments.countP (occupies d s) ≤ 1) :
    ∀ d s, st'.appointments.countP (occupies d s) ≤ 1 := by
  cases hs with
  | make d0 cid cname slot comment fid ts =>
    intro d s
    by_cases hav : slot ∈ st.get_available_slots d0
    · rw [make_avail_eq hav]
      dsimp only
      rw [List.countP_append]
      cases hocc : occupies d s { id := fid, client_id := cid, client_name := cname,
                                  date := d0, slot_number := slot,
                                  payment_status := "Unpaid",
                                  total_fee := st.get_session_fee, status := "Booked",
                                  comment := comment, timestamp := ts }
      · simp only [List.countP_cons, List.countP_nil, hocc]
        simpa using h d s
      · rcases occupies_iff.1 hocc with ⟨hd, hs', -⟩
        have hd' : d0 = d := hd
        have hs'' : slot = s := hs'
        subst hd'
        subst hs''
        have hzero : st.appointments.countP (occupies d0 slot) = 0 :=
          List.countP_eq_zero.2 (fun b hb => by simp [occupies_false_of_avail hav b hb])
        rw [hzero]
        simp [List.countP_cons, hocc]
    · rw [make_not_avail_eq hav]
      exact h d s
  | edit aid nd ns nc hsafe =>
    intro d s
    cases hf : st.appointments.find? (fun app => decide (app.id = aid)) with
    | none =>
      rw [edit_none_eq hf]
      exact h d s
    | some a =>
      by_cases hcond : ns ∉ st.get_available_slots nd ∧ ns ≠ a.slot_number
      · rw [edit_fail_eq hf hcond]
        exact h d s
      · rw [edit_success_eq hf hcond]
        dsimp only
        rcases find?_eq_some_split hf with ⟨pre, post, hsplit, hpre⟩
        have hpre' : ∀ b ∈ pre, b.id ≠ aid := fun b hb => by simpa using hpre b hb
        have haid : a.id = aid := by simpa using List.find?_some hf
        rw [hsplit, editFirst_append hpre' haid, List.countP_append, List.countP_cons]
        have hold := h d s
        rw [hsplit, List.countP_append, List.countP_cons] at hold
        by_cases hav : ns ∈ st.get_available_slots nd
        · have hz := occupies_false_of_avail hav
          cases hocc : occupies d s { a with date := nd, slot_number := ns, comment := nc }
          · simp only [hocc, Bool.false_eq_true, if_false, Nat.add_zero]
            cases hocc2 : occupies d s a <;> simp [hocc2] at hold <;> omega
          · rcases occupies_iff.1 hocc with ⟨hd, hs', -⟩
            have hd' : nd = d := hd
            have hs'' : ns = s := hs'
            subst hd'
            subst hs''
            have hpre0 : pre.countP (occupies nd ns) = 0 :=
              List.countP_eq_zero.2 (fun b hb => by
                simp [hz b (by rw [hsplit]; exact List.mem_append_left _ hb)])
            have hpost0 : post.countP (occupies nd ns) = 0 :=
              List.countP_eq_zero.2 (fun b hb => by
                simp [hz b (by
                  rw [hsplit]
                  exact List.mem_append_right _ (List.mem_cons_of_mem a hb))])
            rw [hpre0, hpost0]
            simp [hocc]
        · have hns : ns = a.slot_number := by
            by_contra hns
            exact hcond ⟨hav, hns⟩
          have hnd : nd = a.date := by
            rcases hsafe a hf with h1 | h1
            · exact absurd h1 hav
            · exact h1
          subst hns
          subst hnd
          exact hold
  | delAppt aid =>
    intro d s
    dsimp only [ScheduleSystem.delete_appointment]
    exact le_trans ((List.filter_sublist _).countP_le _) (h d s)
  | pay aid status =>
    intro d s
    by_cases hany : st.appointments.any (fun app => decide (app.id = aid))
    · have : st.update_appointment_payment_status aid status =
          (true, { st with appointments := setPaymentFirst aid status st.appointments }) := by
        simp [ScheduleSystem.update_appointment_payment_status, hany]
      rw [this]
      dsimp only
      rw [countP_setPaymentFirst]
      exact h d s
    · have : st.update_appointment_payment_status aid status = (false, st) := by
        simp [ScheduleSystem.update_appointment_payment_status, hany]
      rw [this]
      exact h d s
  | slots new_slots =>
    intro d s
    exact h d s
  | fee new_fee =>
    intro d s
    cases new_fee <;> exact h d s
  | daily today =>
    intro d s
    dsimp only [ScheduleSystem.run_daily_tasks]
    rw [countP_runDailyList]
    exact h d s
  | register name dob email cellphone fid ts =>
    intro d s
    exact h d s
  | updClient cid new_info =>
    intro d s
    cases hu : updateFirstClient cid new_info st.clients with
    | none =>
      have : st.update_client cid new_info = (false, st) := by
        simp [ScheduleSystem.update_client, hu]
      rw [this]
      exact h d s
    | some cs =>
      have : st.update_client cid new_info = (true, { st with clients := cs }) := by
        simp [ScheduleSystem.update_client, hu]
      rw [this]
      exact h d s
  | delClient cid =>
    intro d s
    exact h d s

lemma slot_occupancy_aux {st : ScheduleSystem} (h : SafeReachable st) :
    ∀ d s, st.appointments.countP (occupies d s) ≤ 1 := by
  induction h with
  | base => intro d s; simp [initState]
  | step _ hs ih => exact countP_le_one_step hs ih

/-- Counterexample to claim C2 as stated: a state reachable from the empty
store by two bookings and one edit holds TWO non-cancelled appointments on
the same (date, slot) cell. -/
theorem edit_exemption_breaks_slot_invariant :
    Reachable c2Bad ∧
    ¬ (c2Bad.appointments.countP (occupies "2024-01-02" "09:00") ≤ 1) := by
  refine ⟨?_, by decide⟩
  exact Reachable.step (Reachable.step (Reachable.step Reachable.base
      (Step.make initState "2024-01-01" "c1" "Alice" "09:00" "" "A" "t1"))
      (Step.make (initState.make_appointment "2024-01-01" "c1" "Alice" "09:00" "" "A" "t1").2
        "2024-01-02" "c2" "Bob" "09:00" "" "B" "t2"))
      (Step.edit ((initState.make_appointment "2024-01-01" "c1" "Alice" "09:00" "" "A"
          "t1").2.make_appointment "2024-01-02" "c2" "Bob" "09:00" "" "B" "t2").2
        "A" "2024-01-02" "09:00" "x")

/-- Claim C2 (amended): in every state reachable from the empty store by
the store's operations, where each successful edit either targets an
available slot or keeps the appointment's date, every (date, slot) cell is
occupied by at most one non-cancelled appointment.  (Unrestricted edits
break the invariant through the slot-label exemption, as the
counterexample shows.) -/
theorem slot_occupancy_invariant (st : ScheduleSystem) (h : SafeReachable st)
    (d s : String) : st.appointments.countP (occupies d s) ≤ 1 :=
  slot_occupancy_aux h d s

/-- Witness for the amended C2: the invariant holds at a concrete safely
reached state with one booking. -/
theorem slot_occupancy_invariant_witness :
    ((initState.make_appointment "2024-01-05" "c1" "Alice" "09:00" "" "A" "t1").2.appointments.countP
      (occupies "2024-01-05" "09:00")) ≤ 1 :=
  slot_occupancy_invariant _
    (SafeReachable.step SafeReachable.base
      (SafeStep.make initState "2024-01-05" "c1" "Alice" "09:00" "" "A" "t1"))
    "2024-01-05" "09:00"

/-- Counterexample to claim C5 as stated: in a reachable state, a slot
label used by a non-cancelled appointment need not belong to the configured
time-slot list — `set_time_slots` replaced the list under an existing
booking — so the union of available and used slots differs from the
configured list. -/
theorem reslotting_breaks_partition :
    Reachable c5Bad ∧
    "09:00" ∈ c5Bad.bookedSlots "2024-01-01" ∧
    "09:00" ∉ c5Bad.settings.time_slots ∧
    ¬ (("09:00" ∈ c5Bad.settings.time_slots) ↔
        ("09:00" ∈ c5Bad.get_available_slots "2024-01-01" ∨
         "09:00" ∈ c5Bad.bookedSlots "2024-01-01")) := by
  refine ⟨?_, by decide, by decide, by decide⟩
  exact Reachable.step (Reachable.step (Reachable.step Reachable.base
      (Step.slots initState ["09:00"]))
      (Step.make (initState.set_time_slots ["09:00"]).2
        "2024-01-01" "c1" "Alice" "09:00" "" "A" "t1"))
      (Step.slots ((initState.set_time_slots ["09:00"]).2.make_appointment
        "2024-01-01" "c1" "Alice" "09:00" "" "A" "t1").2 ["10:00"])

/-- Claim C5 (amended): in every reachable state and for every date, the
available slots and the slot labels used by non-cancelled appointments on
that date are disjoint — unconditionally; and, provided every used slot
still belongs to the configured time-slot list (which `set_time_slots` can
break, as the counterexample shows), their union equals the configured
list. -/
theorem availability_partition (st : ScheduleSystem) (_hreach : Reachable st)
    (d s : String) :
    ¬ (s ∈ st.get_available_slots d ∧ s ∈ st.bookedSlots d) ∧
    ((∀ u ∈ st.bookedSlots d, u ∈ st.settings.time_slots) →
      (s ∈ st.settings.time_slots ↔
        s ∈ st.get_available_slots d ∨ s ∈ st.bookedSlots d)) := by
  constructor
  · rintro ⟨hav, hb⟩
    exact (mem_avail.1 hav).2 hb
  · intro hconf
    constructor
    · intro hmem
      by_cases hb : s ∈ st.bookedSlots d
      · exact Or.inr hb
      · exact Or.inl (mem_avail.2 ⟨hmem, hb⟩)
    · rintro (hav | hb)
      · exact (mem_avail.1 hav).1
      · exact hconf s hb

/-- Witness for the amended C5: the partition at a concrete reachable
state with one booking and the default slot configuration. -/
theorem availability_partition_witness :
    (¬ ("09:00" ∈ (initState.make_appointment "2024-01-05" "c1" "Alice" "09:00" "" "A"
          "t1").2.get_available_slots "2024-01-05" ∧
        "09:00" ∈ (initState.make_appointment "2024-01-05" "c1" "Alice" "09:00" "" "A"
          "t1").2.bookedSlots "2024-01-05")) ∧
    ("09:00" ∈ (initState.make_appointment "2024-01-05" "c1" "Alice" "09:00" "" "A"
        "t1").2.settings.time_slots ↔
      "09:00" ∈ (initState.make_appointment "2024-01-05" "c1" "Alice" "09:00" "" "A"
        "t1").2.get_available_slots "2024-01-05" ∨
      "09:00" ∈ (initState.make_appointment "2024-01-05" "c1" "Alice" "09:00" "" "A"
        "t1").2.bookedSlots "2024-01-05") :=
  ⟨(availability_partition _
      (Reachable.step Reachable.base
        (Step.make initState "2024-01-05" "c1" "Alice" "09:00" "" "A" "t1"))
      "2024-01-05" "09:00").1,
   (availability_partition _
      (Reachable.step Reachable.base
        (Step.make initState "2024-01-05" "c1" "Alice" "09:00" "" "A" "t1"))
      "2024-01-05" "09:00").2 (by decide)⟩
